import Mathlib

/-!
Shallow embedding of the finding-classification and policy engine of
`zap-scripts/zap-baseline.py`: rule registry, alert grouping, policy
configuration, in-progress reconciliation, count aggregation, config-file
generation, and the final exit verdict.

The script imports several helpers from `zap_common` (`zap_get_alerts`,
`load_config`, `print_rules` and the `inc_*_rules` predicates) whose source
is not part of the material at hand; those are modelled from the
specification, and each such definition is marked `Modelled from the spec`.
Everything else is translated directly from `zap-baseline.py`.
-/

namespace ZapBaseline

/-- Policy action configured for a rule (config file `ACTION` keywords). -/
inductive Action where
  | IGNORE
  | INFO
  | WARN
  | FAIL
deriving DecidableEq, Repr

/-- One scan finding: a rule firing against a concrete URL. -/
structure Alert where
  pluginId : String
  url : String
deriving DecidableEq, Repr

/-- Findings grouped by rule id in insertion order (`alert_dict`). -/
abbrev AlertDict := List (String × List Alert)

/-- Fixed deny list of pscan rules (zap-baseline.py line 65). -/
def blacklist : List String := ["-1", "50003", "60000", "60001"]

/-- Python `x in l` for lists of strings. -/
def list_has (l : List String) (x : String) : Bool :=
  l.any (fun s => decide (s = x))

/-- Python `k in d` for dictionaries. -/
def dmem {α : Type} (d : List (String × α)) (k : String) : Bool :=
  d.any (fun p => decide (p.1 = k))

/-- Python dict assignment `d[k] = v`: overwrite the value when the key is
present, otherwise append the new binding at the end. -/
def dinsert {α : Type} (d : List (String × α)) (k : String) (v : α) :
    List (String × α) :=
  if dmem d k then
    d.map (fun p => if p.1 = k then (k, v) else p)
  else d ++ [(k, v)]

/-- Python `d.get(k)`: value of the first binding of `k`. -/
def dlookup {α : Type} : List (String × α) → String → Option α
  | [], _ => none
  | p :: ps, k => if k = p.1 then some p.2 else dlookup ps k

/-- Appending one alert to its rule's group, creating the group on first
use (`alert_dict[pluginId].append(alert)`). -/
def add_alert (d : AlertDict) (a : Alert) : AlertDict :=
  if dmem d a.pluginId then
    d.map (fun p => if p.1 = a.pluginId then (p.1, p.2 ++ [a]) else p)
  else d ++ [(a.pluginId, [a])]

/-- Modelled from the spec: `zap_common.zap_get_alerts` is not among the
sources.  Exclusion Filter contract: drop every finding whose rule id is on
the deny list, drop every remaining finding whose URL matches a registered
scope-exclusion pattern for its rule (the URL-glob matching itself is
abstracted as the predicate `oos`), and group the survivors by rule id. -/
def zap_get_alerts (alerts : List Alert) (deny : List String)
    (oos : String → String → Bool) : AlertDict :=
  alerts.foldl
    (fun d a =>
      if list_has deny a.pluginId || oos a.pluginId a.url then d
      else add_alert d a) []

/-- Modelled from the spec: `zap_common.inc_ignore_rules` is not among the
sources.  Membership in the IGNORE pass is by explicit configuration only;
unconfigured rules never default to IGNORE, so the `unspecified` flag the
caller passes is not consulted. -/
def inc_ignore_rules (cfg : List (String × Action)) (ruleId : String)
    (_unspecified : Bool) : Bool :=
  decide (dlookup cfg ruleId = some Action.IGNORE)

/-- Modelled from the spec: `zap_common.inc_info_rules` is not among the
sources.  A rule belongs to the INFO pass when its explicit action is INFO,
or when it has no explicit action and the pass's unconfigured-rules flag is
set. -/
def inc_info_rules (cfg : List (String × Action)) (ruleId : String)
    (unspecified : Bool) : Bool :=
  decide (dlookup cfg ruleId = some Action.INFO) ||
    ((dlookup cfg ruleId).isNone && unspecified)

/-- Modelled from the spec: `zap_common.inc_warn_rules` is not among the
sources.  A rule belongs to the WARN pass when its explicit action is WARN,
or when it has no explicit action and the pass's unconfigured-rules flag is
set. -/
def inc_warn_rules (cfg : List (String × Action)) (ruleId : String)
    (unspecified : Bool) : Bool :=
  decide (dlookup cfg ruleId = some Action.WARN) ||
    ((dlookup cfg ruleId).isNone && unspecified)

/-- Modelled from the spec: `zap_common.inc_fail_rules` is not among the
sources.  Membership in the FAIL pass is by explicit configuration only;
unconfigured rules never default to FAIL. -/
def inc_fail_rules (cfg : List (String × Action)) (ruleId : String)
    (_unspecified : Bool) : Bool :=
  decide (dlookup cfg ruleId = some Action.FAIL)

/-- Modelled from the spec: `zap_common.print_rules` is not among the
sources.  One severity pass returns the pair (new count, in-progress
count): every grouped rule accepted by the inclusion predicate contributes
the size of its finding group, to the in-progress side when its rule id is
among the in-progress records handed to the pass and to the new side
otherwise (the split is per rule id, and counts count findings; the caller
in zap-baseline.py lines 362-375 passes the empty record set to the IGNORE
pass and the loaded records to the INFO, WARN and FAIL passes). -/
def print_rules (ad : AlertDict) (cfg : List (String × Action))
    (inc : List (String × Action) → String → Bool → Bool)
    (unspecified : Bool) (progress : List String) : Nat × Nat :=
  ad.foldl
    (fun acc p =>
      if inc cfg p.1 unspecified then
        if list_has progress p.1 then (acc.1, acc.2 + p.2.length)
        else (acc.1 + p.2.length, acc.2)
      else acc) (0, 0)

/-- Total number of findings in a list of rule groups. -/
def findings_sum (l : AlertDict) : Nat :=
  (l.map (fun p => p.2.length)).sum

/-- Registry dictionary `all_dict` (zap-baseline.py lines 329-334): every
known rule that is not deny-listed, mapped to its name. -/
def all_dict (rules : List (String × String)) : List (String × String) :=
  rules.foldl
    (fun d r => if list_has blacklist r.1 then d else dinsert d r.1 r.2) []

/-- Passing-rule dictionary `pass_dict` (zap-baseline.py lines 347-353):
every non-deny-listed rule with no group in `alert_dict`. -/
def pass_dict (rules : List (String × String)) (ad : AlertDict) :
    List (String × String) :=
  rules.foldl
    (fun d r =>
      if list_has blacklist r.1 then d
      else if dmem ad r.1 then d
      else dinsert d r.1 r.2) []

instance decidableByKey {α : Type} :
    DecidableRel (fun (a b : String × α) => a.1 ≤ b.1) :=
  fun a b => inferInstanceAs (Decidable (a.1 ≤ b.1))

instance keyLeTotal {α : Type} :
    IsTotal (String × α) (fun a b => a.1 ≤ b.1) :=
  ⟨fun a b => le_total a.1 b.1⟩

instance keyLeTrans {α : Type} :
    IsTrans (String × α) (fun a b => a.1 ≤ b.1) :=
  ⟨fun _ _ _ h1 h2 => le_trans h1 h2⟩

/-- Python `sorted(d.items())`: dictionary items in ascending key order
(keys of a dictionary are unique, so comparison never reaches values). -/
def sort_items {α : Type} (d : List (String × α)) : List (String × α) :=
  List.insertionSort (fun a b => a.1 ≤ b.1) d

/-- Comment header the generator writes first (zap-baseline.py lines
339-342). -/
def config_headers : List String :=
  ["# zap-baseline rule configuration file",
   "# Change WARN to IGNORE to ignore rule or FAIL to fail if rule matches",
   "# Only the rule identifiers are used - the names are just for info",
   "# You can add your own messages to each rule by appending them after a tab on each line."]

/-- Lines of the generated configuration template (zap-baseline.py lines
338-344): the four comment headers, then one `id TAB WARN TAB (name)` line
per entry of `all_dict`, iterated in sorted key order. -/
def generate_lines (rules : List (String × String)) : List String :=
  config_headers ++
    (sort_items (all_dict rules)).map
      (fun p => p.1 ++ "\tWARN\t(" ++ p.2 ++ ")")

/-- Splitting a character list at tab characters, accumulator style; the
accumulator holds the current field reversed. -/
def split_tabs_chars : List Char → List Char → List (List Char)
  | [], cur => [cur.reverse]
  | c :: cs, cur =>
    if c = '\t' then cur.reverse :: split_tabs_chars cs []
    else split_tabs_chars cs (c :: cur)

/-- Modelled from the spec: tab-separated fields of one configuration line
(the config file format is line-oriented and tab-separated). -/
def split_tabs (s : String) : List String :=
  (split_tabs_chars s.toList []).map List.asString

/-- Modelled from the spec: a configuration line is ignored when blank or
when it starts with the comment character. -/
def is_comment_or_blank (line : String) : Bool :=
  match line.toList with
  | [] => true
  | c :: _ => decide (c = '#')

/-- Modelled from the spec: action keywords, accepted case-insensitively
(the keyword is uppercased character by character before comparison). -/
def parse_action (s : String) : Option Action :=
  if s.toList.map Char.toUpper = "FAIL".toList then some Action.FAIL
  else if s.toList.map Char.toUpper = "IGNORE".toList then some Action.IGNORE
  else if s.toList.map Char.toUpper = "INFO".toList then some Action.INFO
  else if s.toList.map Char.toUpper = "WARN".toList then some Action.WARN
  else none

/-- Modelled from the spec: `zap_common.load_config` is not among the
sources.  One policy line parses to (rule id, action, optional custom
message): blank and comment lines are skipped, a line needs at least three
tab-separated fields, the second must be an action keyword (a malformed
keyword skips the line with a warning), and a fourth field is the optional
custom message. -/
def parse_config_line (line : String) :
    Option (String × Action × Option String) :=
  if is_comment_or_blank line then none
  else
    match split_tabs line with
    | ruleId :: action :: _ :: rest =>
      match parse_action action with
      | some a => some (ruleId, a, rest.head?)
      | none => none
    | _ => none

/-- Modelled from the spec: the `config_dict` produced by
`zap_common.load_config`, later lines overwriting earlier ones. -/
def load_config (lines : List String) : List (String × Action) :=
  lines.foldl
    (fun cfg line =>
      match parse_config_line line with
      | some (r, a, _) => dinsert cfg r a
      | none => cfg) []

/-- Modelled from the spec: the `config_msg` dictionary of custom messages
produced by `zap_common.load_config`. -/
def load_msgs (lines : List String) : List (String × String) :=
  lines.foldl
    (fun msgs line =>
      match parse_config_line line with
      | some (r, _, some m) => dinsert msgs r m
      | _ => msgs) []

/-- One entry of the progress file's `issues` list; every field other than
`id` and `state` is collected in `extra` (the script stores the whole
record but only ever consults the key). -/
structure Issue where
  id : String
  state : String
  extra : List (String × String) := []
deriving DecidableEq, Repr

/-- Progress-file parsing (zap-baseline.py lines 230-233): keep exactly the
issues whose state is "inprogress", keyed by id. -/
def load_progress (issues : List Issue) : List (String × Issue) :=
  issues.foldl
    (fun d i => if i.state = "inprogress" then dinsert d i.id i else d) []

/-- Rule ids of the in-progress records, as consulted by the passes. -/
def progress_ids (issues : List Issue) : List String :=
  (load_progress issues).map Prod.fst

/-- The seven aggregate counters of zap-baseline.py lines 126-132. -/
structure Counts where
  pass_count : Nat
  ignore_count : Nat
  info_count : Nat
  warn_count : Nat
  warn_inprog_count : Nat
  fail_count : Nat
  fail_inprog_count : Nat
deriving DecidableEq, Repr

/-- Initial counter values (zap-baseline.py lines 126-132). -/
def Counts.zero : Counts := ⟨0, 0, 0, 0, 0, 0, 0⟩

/-- Exit verdict of zap-baseline.py lines 417-424. -/
def exit_code (c : Counts) : Nat :=
  if c.fail_count > 0 then 1
  else if c.warn_count > 0 then 2
  else if c.pass_count > 0 then 0
  else 3

/-- Loaded policy state: `config_dict`, `config_msg` and
`out_of_scope_dict`, the URL pattern matching of the latter abstracted as a
predicate on rule id and URL. -/
structure Policy where
  config : List (String × Action)
  msgs : List (String × String)
  oos : String → String → Bool

/-- Policy state when no configuration file is supplied. -/
def Policy.empty : Policy := ⟨[], [], fun _ _ => false⟩

/-- Per-run scan data handed to the classification block: the rule
registry, the raw findings, the in-progress rule ids, and the `-i`
(info-default) flag. -/
structure ScanInput where
  rules : List (String × String)
  alerts : List Alert
  progress : List String
  info_unspecified : Bool

/-- The counting part of the classification block of zap-baseline.py lines
326-375: build `alert_dict`, count the passing rules, then run the IGNORE,
INFO, WARN and FAIL passes with exactly the flags and record sets the
script passes (the empty record set and flag True for IGNORE, the loaded
records with `info_unspecified` for INFO, its negation for WARN, and True
for FAIL). -/
def classify_counts (pol : Policy) (inp : ScanInput) : Counts :=
  let ad := zap_get_alerts inp.alerts blacklist pol.oos
  let pc := (pass_dict inp.rules ad).length
  let ig := print_rules ad pol.config inc_ignore_rules true []
  let inf := print_rules ad pol.config inc_info_rules inp.info_unspecified inp.progress
  let wa := print_rules ad pol.config inc_warn_rules (!inp.info_unspecified) inp.progress
  let fa := print_rules ad pol.config inc_fail_rules true inp.progress
  ⟨pc, ig.1, inf.1, wa.1, wa.2, fa.1, fa.2⟩

/-- One rendered severity group: the rule id, its surviving findings, the
configured custom message, and whether the group is attributed to the
in-progress side. -/
structure Group where
  ruleId : String
  alerts : List Alert
  message : String
  inProgress : Bool
deriving DecidableEq, Repr

/-- The groups one severity pass renders, in the sorted order the pass
iterates the alert dictionary. -/
def level_groups (ad : AlertDict) (cfg : List (String × Action))
    (msgs : List (String × String))
    (inc : List (String × Action) → String → Bool → Bool)
    (unspecified : Bool) (progress : List String) : List Group :=
  (sort_items ad).filterMap
    (fun p =>
      if inc cfg p.1 unspecified then
        some ⟨p.1, p.2, (dlookup msgs p.1).getD "", list_has progress p.1⟩
      else none)

/-- Everything observable from one classification run: the sorted passing
rules, the four severity group lists, the counters, and the exit
verdict. -/
structure RunResult where
  passes : List (String × String)
  ignore_groups : List Group
  info_groups : List Group
  warn_groups : List Group
  fail_groups : List Group
  counts : Counts
  exit : Nat
deriving DecidableEq, Repr

/-- A full classification run (zap-baseline.py lines 326-375 together with
the verdict of lines 417-424). -/
def run_result (pol : Policy) (inp : ScanInput) : RunResult :=
  let ad := zap_get_alerts inp.alerts blacklist pol.oos
  ⟨sort_items (pass_dict inp.rules ad),
   level_groups ad pol.config pol.msgs inc_ignore_rules true [],
   level_groups ad pol.config pol.msgs inc_info_rules inp.info_unspecified inp.progress,
   level_groups ad pol.config pol.msgs inc_warn_rules (!inp.info_unspecified) inp.progress,
   level_groups ad pol.config pol.msgs inc_fail_rules true inp.progress,
   classify_counts pol inp,
   exit_code (classify_counts pol inp)⟩

/-- Counter state after the first `steps` assignments of the
classification block have run, in source order: pass (line 359), IGNORE
(362), INFO (366), WARN (370), FAIL (374); any counter not yet assigned
keeps its initial zero. -/
def counts_after (pol : Policy) (inp : ScanInput) (steps : Nat) : Counts :=
  let c := classify_counts pol inp
  ⟨if 1 ≤ steps then c.pass_count else 0,
   if 2 ≤ steps then c.ignore_count else 0,
   if 3 ≤ steps then c.info_count else 0,
   if 4 ≤ steps then c.warn_count else 0,
   if 4 ≤ steps then c.warn_inprog_count else 0,
   if 5 ≤ steps then c.fail_count else 0,
   if 5 ≤ steps then c.fail_inprog_count else 0⟩

/-- Tail of `main` (zap-baseline.py lines 281-424): the scan and the
classification block run inside a bare try/except pair that swallows every
exception without re-raising, and control always reaches the verdict of
lines 417-424 with whatever counter values had been assigned by then.
A run with `num_urls = 0` skips the classification block entirely (line
320); `fail_at = some k` models an exception thrown after `k` counter
assignments (`some 0` covers any failure before the first rule is
classified, such as connecting, spidering or waiting for the passive
scan); `fail_at = none` is a clean run. -/
def main_exit (pol : Policy) (inp : ScanInput) (num_urls : Nat)
    (fail_at : Option Nat) : Nat :=
  let steps := match fail_at with | none => 5 | some k => min k 5
  let c := if num_urls = 0 then Counts.zero else counts_after pol inp steps
  exit_code c

/-! Helper lemmas about the dictionary model. -/

theorem list_has_iff (l : List String) (x : String) :
    list_has l x = true ↔ x ∈ l := by
  simp [list_has, List.any_eq_true]

theorem dmem_iff {α : Type} (d : List (String × α)) (k : String) :
    dmem d k = true ↔ ∃ p ∈ d, p.1 = k := by
  simp [dmem, List.any_eq_true]

theorem dlookup_none_iff {α : Type} (d : List (String × α)) (k : String) :
    dlookup d k = none ↔ ∀ p ∈ d, p.1 ≠ k := by
  induction d with
  | nil => simp [dlookup]
  | cons p ps ih =>
    by_cases h : k = p.1
    · simp [dlookup, h]
    · simp only [dlookup, if_neg h, ih, List.mem_cons]
      constructor
      · intro hall
        exact fun q hq => hq.elim (fun he => he ▸ fun hc => h hc.symm) (hall q)
      · intro hall q hq
        exact hall q (Or.inr hq)

theorem dlookup_none_of_dmem_false {α : Type} (d : List (String × α))
    (k : String) (h : dmem d k = false) : dlookup d k = none := by
  rw [dlookup_none_iff]
  intro p hp hc
  exact absurd ((dmem_iff d k).mpr ⟨p, hp, hc⟩) (by simp [h])

theorem dlookup_map_overwrite {α : Type} (d : List (String × α)) (k : String)
    (v : α) (x : String) :
    dlookup (d.map (fun p => if p.1 = k then (k, v) else p)) x
      = if x = k then (if dmem d k then some v else none) else dlookup d x := by
  induction d with
  | nil => by_cases h : x = k <;> simp [dlookup, dmem, h]
  | cons p ps ih =>
    by_cases hpk : p.1 = k
    · by_cases hxk : x = k
      · simp [dlookup, dmem, hpk, hxk, ih]
      · have hxp : ¬x = p.1 := fun hc => hxk (hpk ▸ hc)
        simp [dlookup, dmem, hpk, hxk, hxp, ih]
    · by_cases hxk : x = k
      · have hkp : ¬k = p.1 := fun hc => hpk hc.symm
        subst hxk
        have hd : decide (p.1 = x) = false := by simp [hpk]
        simp only [dlookup, dmem, List.map_cons, List.any_cons, if_neg hpk,
          if_neg hkp, ih, if_pos rfl, hd, Bool.false_or]
      · by_cases hxp : x = p.1
        · simp [dlookup, dmem, hpk, hxk, hxp]
        · simp [dlookup, dmem, hpk, hxk, hxp, ih]

theorem dlookup_append_single {α : Type} (d : List (String × α)) (k : String)
    (v : α) (x : String) :
    dlookup (d ++ [(k, v)]) x
      = match dlookup d x with
        | some w => some w
        | none => if x = k then some v else none := by
  induction d with
  | nil => by_cases h : x = k <;> simp [dlookup, h]
  | cons p ps ih =>
    by_cases hxp : x = p.1
    · simp [dlookup, hxp]
    · simp [dlookup, hxp, ih]

theorem dlookup_dinsert_self {α : Type} (d : List (String × α)) (k : String)
    (v : α) : dlookup (dinsert d k v) k = some v := by
  unfold dinsert
  by_cases h : dmem d k
  · rw [if_pos h, dlookup_map_overwrite]
    simp [h]
  · rw [if_neg h, dlookup_append_single,
      dlookup_none_of_dmem_false d k (by simpa using h)]
    simp

theorem dlookup_dinsert_ne {α : Type} (d : List (String × α)) (k x : String)
    (v : α) (h : x ≠ k) : dlookup (dinsert d k v) x = dlookup d x := by
  unfold dinsert
  by_cases hm : dmem d k
  · rw [if_pos hm, dlookup_map_overwrite, if_neg h]
  · rw [if_neg hm, dlookup_append_single]
    cases hdx : dlookup d x <;> simp [h]

theorem dinsert_of_dmem_false {α : Type} (d : List (String × α)) (k : String)
    (v : α) (h : dmem d k = false) : dinsert d k v = d ++ [(k, v)] := by
  unfold dinsert
  rw [if_neg (by simp [h])]

theorem dinsert_mem_sub {α : Type} (d : List (String × α)) (k : String)
    (v : α) (q : String × α) (hq : q ∈ dinsert d k v) :
    q ∈ d ∨ q = (k, v) := by
  unfold dinsert at hq
  by_cases h : dmem d k
  · rw [if_pos h] at hq
    rcases List.mem_map.mp hq with ⟨p, hp, he⟩
    by_cases hpk : p.1 = k
    · rw [if_pos hpk] at he
      exact Or.inr he.symm
    · rw [if_neg hpk] at he
      exact Or.inl (he ▸ hp)
  · rw [if_neg h] at hq
    rcases List.mem_append.mp hq with hq | hq
    · exact Or.inl hq
    · exact Or.inr (List.mem_singleton.mp hq)

/-! Characterisation of the counts one severity pass returns. -/

theorem print_rules_foldl (cfg : List (String × Action))
    (inc : List (String × Action) → String → Bool → Bool)
    (b : Bool) (prog : List String) :
    ∀ (ad : AlertDict) (acc : Nat × Nat),
      ad.foldl
        (fun acc p =>
          if inc cfg p.1 b then
            if list_has prog p.1 then (acc.1, acc.2 + p.2.length)
            else (acc.1 + p.2.length, acc.2)
          else acc) acc
      = (acc.1 + findings_sum (ad.filter (fun p => inc cfg p.1 b && !(list_has prog p.1))),
         acc.2 + findings_sum (ad.filter (fun p => inc cfg p.1 b && list_has prog p.1))) := by
  intro ad
  induction ad with
  | nil => intro acc; simp [findings_sum]
  | cons hd tl ih =>
    intro acc
    cases h1 : inc cfg hd.1 b <;> cases h2 : list_has prog hd.1 <;>
      simp [h1, h2, ih, findings_sum, Nat.add_assoc, Nat.add_comm, Nat.add_left_comm]

theorem print_rules_eq (ad : AlertDict) (cfg : List (String × Action))
    (inc : List (String × Action) → String → Bool → Bool)
    (b : Bool) (prog : List String) :
    print_rules ad cfg inc b prog
      = (findings_sum (ad.filter (fun p => inc cfg p.1 b && !(list_has prog p.1))),
         findings_sum (ad.filter (fun p => inc cfg p.1 b && list_has prog p.1))) := by
  unfold print_rules
  rw [print_rules_foldl]
  simp

theorem findings_sum_filter_split (ad : AlertDict) (q c : String × List Alert → Bool) :
    findings_sum (ad.filter (fun p => q p && !(c p)))
      + findings_sum (ad.filter (fun p => q p && c p))
      = findings_sum (ad.filter q) := by
  induction ad with
  | nil => simp [findings_sum]
  | cons hd tl ih =>
    cases h1 : q hd <;> cases h2 : c hd <;>
      simp [h1, h2, findings_sum, List.filter_cons] at * <;> omega

theorem print_rules_new_add_inprog (ad : AlertDict)
    (cfg : List (String × Action))
    (inc : List (String × Action) → String → Bool → Bool)
    (b : Bool) (prog : List String) :
    (print_rules ad cfg inc b prog).1 + (print_rules ad cfg inc b prog).2
      = findings_sum (ad.filter (fun p => inc cfg p.1 b)) := by
  rw [print_rules_eq]
  exact findings_sum_filter_split ad (fun p => inc cfg p.1 b) (fun p => list_has prog p.1)

/-! Further dictionary-key lemmas, used by the progress-file claims. -/

theorem dinsert_keys {α : Type} (d : List (String × α)) (k : String) (v : α) :
    (dinsert d k v).map Prod.fst
      = if dmem d k then d.map Prod.fst else d.map Prod.fst ++ [k] := by
  unfold dinsert
  by_cases h : dmem d k
  · rw [if_pos h, if_pos h, List.map_map]
    apply List.map_congr_left
    intro p _
    by_cases hp : p.1 = k <;> simp [hp]
  · rw [if_neg h, if_neg h]
    simp

theorem dmem_eq_list_has_keys {α : Type} (d : List (String × α)) (k : String) :
    dmem d k = list_has (d.map Prod.fst) k := by
  induction d with
  | nil => rfl
  | cons p ps ih =>
    simp only [dmem, list_has, List.map_cons, List.any_cons] at *
    rw [ih]

theorem dmem_eq_keys {α β : Type} (d : List (String × α))
    (e : List (String × β)) (k : String)
    (h : d.map Prod.fst = e.map Prod.fst) : dmem d k = dmem e k := by
  rw [dmem_eq_list_has_keys, dmem_eq_list_has_keys, h]

theorem dlookup_dinsert_isSome {α : Type} (d : List (String × α))
    (k : String) (v : α) (x : String) :
    (dlookup (dinsert d k v) x).isSome = true
      ↔ x = k ∨ (dlookup d x).isSome = true := by
  by_cases h : x = k
  · subst h
    simp [dlookup_dinsert_self]
  · rw [dlookup_dinsert_ne d k x v h]
    simp [h]

theorem load_progress_mem_aux :
    ∀ (issues : List Issue) (d : List (String × Issue)) (x : String),
      (dlookup
        (issues.foldl
          (fun d i => if i.state = "inprogress" then dinsert d i.id i else d) d)
        x).isSome = true
      ↔ (dlookup d x).isSome = true
          ∨ ∃ i ∈ issues, i.id = x ∧ i.state = "inprogress" := by
  intro issues
  induction issues with
  | nil => intro d x; simp
  | cons i is ih =>
    intro d x
    by_cases hs : i.state = "inprogress"
    · rw [List.foldl_cons, if_pos hs, ih, dlookup_dinsert_isSome]
      constructor
      · rintro ((h | h) | h)
        · exact Or.inr ⟨i, List.mem_cons_self i is, h.symm, hs⟩
        · exact Or.inl h
        · obtain ⟨j, hj, hjx, hjs⟩ := h
          exact Or.inr ⟨j, List.mem_cons_of_mem i hj, hjx, hjs⟩
      · rintro (h | h)
        · exact Or.inl (Or.inr h)
        · obtain ⟨j, hj, hjx, hjs⟩ := h
          rcases List.mem_cons.mp hj with hji | hji
          · exact Or.inl (Or.inl (hji ▸ hjx).symm)
          · exact Or.inr ⟨j, hji, hjx, hjs⟩
    · rw [List.foldl_cons, if_neg hs, ih]
      constructor
      · rintro (h | h)
        · exact Or.inl h
        · obtain ⟨j, hj, hjx, hjs⟩ := h
          exact Or.inr ⟨j, List.mem_cons_of_mem i hj, hjx, hjs⟩
      · rintro (h | h)
        · exact Or.inl h
        · obtain ⟨j, hj, hjx, hjs⟩ := h
          rcases List.mem_cons.mp hj with hji | hji
          · exact absurd (hji ▸ hjs) hs
          · exact Or.inr ⟨j, hji, hjx, hjs⟩

theorem load_progress_keys_aux :
    ∀ (issues : List Issue) (d e : List (String × Issue)),
      d.map Prod.fst = e.map Prod.fst →
      ((issues.map (fun i => (⟨i.id, i.state, []⟩ : Issue))).foldl
        (fun d i => if i.state = "inprogress" then dinsert d i.id i else d) d).map Prod.fst
      = (issues.foldl
          (fun d i => if i.state = "inprogress" then dinsert d i.id i else d) e).map Prod.fst := by
  intro issues
  induction issues with
  | nil => intro d e h; simpa using h
  | cons i is ih =>
    intro d e h
    simp only [List.map_cons, List.foldl_cons]
    by_cases hs : i.state = "inprogress"
    · rw [if_pos hs, if_pos hs]
      apply ih
      rw [dinsert_keys, dinsert_keys, dmem_eq_keys d e i.id h, h]
    · rw [if_neg hs, if_neg hs]
      exact ih d e h

/-- CLAIM C9: loading the progress file populates the in-progress record
set with exactly the issue entries whose state field equals "inprogress",
keyed by the entry's id; entries with every other state contribute nothing,
and fields other than id and state have no effect on the record set's
keys. -/
theorem load_progress_spec (issues : List Issue) (x : String) :
    ((dlookup (load_progress issues) x).isSome = true
      ↔ ∃ i ∈ issues, i.id = x ∧ i.state = "inprogress") ∧
    progress_ids (issues.map (fun i => ⟨i.id, i.state, []⟩)) = progress_ids issues := by
  constructor
  · unfold load_progress
    rw [load_progress_mem_aux]
    simp [dlookup]
  · unfold progress_ids load_progress
    exact load_progress_keys_aux issues [] [] rfl

/-- CLAIM C1: the exit verdict of zap-baseline.py lines 417-424 is evaluated
in strict precedence — a positive new-FAIL finding count exits 1; otherwise
a positive new-WARN finding count exits 2; otherwise a positive pass-rule
count exits 0; otherwise 3 — and the verdict reads nothing but the
new-FAIL, new-WARN and pass counters, so the in-progress WARN/FAIL counts
and the INFO/IGNORE counts never influence the exit code. -/
theorem exit_verdict_precedence (c : Counts) :
    (0 < c.fail_count → exit_code c = 1) ∧
    (c.fail_count = 0 → 0 < c.warn_count → exit_code c = 2) ∧
    (c.fail_count = 0 → c.warn_count = 0 → 0 < c.pass_count → exit_code c = 0) ∧
    (c.fail_count = 0 → c.warn_count = 0 → c.pass_count = 0 → exit_code c = 3) ∧
    (∀ d : Counts, c.fail_count = d.fail_count → c.warn_count = d.warn_count →
      c.pass_count = d.pass_count → exit_code c = exit_code d) := by
  refine ⟨?_, ?_, ?_, ?_, ?_⟩
  · intro h; unfold exit_code; rw [if_pos h]
  · intro h1 h2; unfold exit_code; rw [if_neg (by omega), if_pos h2]
  · intro h1 h2 h3; unfold exit_code
    rw [if_neg (by omega), if_neg (by omega), if_pos h3]
  · intro h1 h2 h3; unfold exit_code
    rw [if_neg (by omega), if_neg (by omega), if_neg (by omega)]
  · intro d h1 h2 h3; unfold exit_code; rw [h1, h2, h3]

/-- Witness for C1 at the spec's own example counter state: no new FAIL,
two new WARN findings, five passes exits with code 2. -/
theorem exit_verdict_precedence_witness :
    exit_code ⟨5, 0, 0, 2, 0, 0, 0⟩ = 2 :=
  (exit_verdict_precedence ⟨5, 0, 0, 2, 0, 0, 0⟩).2.1 rfl (by decide)

/-- CLAIM C10: every exception raised during the scan/classification phase
is swallowed by the bare try/except of zap-baseline.py lines 281-412 and is
never re-raised; the run still terminates through the normal verdict logic
applied to the counters computed before the exception, and a failure before
any rule is classified (or a run that saw no URLs) leaves every counter at
zero and therefore always exits with code 3. -/
theorem exception_falls_through_to_verdict (pol : Policy) (inp : ScanInput)
    (num_urls : Nat) (fail_at : Option Nat) :
    (main_exit pol inp num_urls fail_at
      = exit_code (if num_urls = 0 then Counts.zero
          else counts_after pol inp
            (match fail_at with | none => 5 | some k => min k 5))) ∧
    (fail_at = some 0 → main_exit pol inp num_urls fail_at = 3) ∧
    (num_urls = 0 → main_exit pol inp num_urls fail_at = 3) := by
  refine ⟨rfl, ?_, ?_⟩
  · intro h
    subst h
    unfold main_exit counts_after exit_code Counts.zero
    by_cases h0 : num_urls = 0 <;> simp [h0]
  · intro h
    subst h
    unfold main_exit exit_code Counts.zero
    simp

/-- Witness for C10: with seven URLs found and an exception striking before
any classification, the run exits 3. -/
theorem exception_falls_through_to_verdict_witness :
    main_exit Policy.empty ⟨[("10001", "X")], [⟨"10001", "u"⟩], [], false⟩ 7 (some 0) = 3 :=
  (exception_falls_through_to_verdict Policy.empty
    ⟨[("10001", "X")], [⟨"10001", "u"⟩], [], false⟩ 7 (some 0)).2.1 rfl

/-! Membership in rendered severity groups. -/

theorem mem_level_groups (ad : AlertDict) (cfg : List (String × Action))
    (msgs : List (String × String))
    (inc : List (String × Action) → String → Bool → Bool)
    (b : Bool) (prog : List String) (g : Group)
    (hg : g ∈ level_groups ad cfg msgs inc b prog) :
    inc cfg g.ruleId b = true ∧ ∃ p ∈ ad, p.1 = g.ruleId := by
  unfold level_groups at hg
  rcases List.mem_filterMap.mp hg with ⟨p, hp, hf⟩
  by_cases hinc : inc cfg p.1 b = true
  · rw [if_pos hinc] at hf
    cases hf
    exact ⟨hinc, p, ((List.perm_insertionSort _ ad).mem_iff).mp hp, rfl⟩
  · rw [if_neg hinc] at hf
    cases hf

/-- CLAIM C2: a rule with no explicit configured action is classified in
exactly one of the WARN-default and INFO-default categories, selected by
the info-default flag exactly as the passes are invoked in zap-baseline.py
lines 362-375 (the INFO pass receives the flag, the WARN pass its
negation): the rule belongs to the INFO pass precisely when the flag is
set and to the WARN pass precisely when it is not, never to both in one
run, and it never lands in an IGNORE or FAIL group, since those passes
accept only explicitly configured memberships. -/
theorem default_action_exclusive (pol : Policy) (inp : ScanInput)
    (x : String) (h : dlookup pol.config x = none) :
    inc_info_rules pol.config x inp.info_unspecified = inp.info_unspecified ∧
    inc_warn_rules pol.config x (!inp.info_unspecified) = !inp.info_unspecified ∧
    (inc_info_rules pol.config x inp.info_unspecified = true
      ↔ inc_warn_rules pol.config x (!inp.info_unspecified) = false) ∧
    inc_ignore_rules pol.config x true = false ∧
    inc_fail_rules pol.config x true = false ∧
    (∀ g ∈ (run_result pol inp).ignore_groups, g.ruleId ≠ x) ∧
    (∀ g ∈ (run_result pol inp).fail_groups, g.ruleId ≠ x) := by
  have h1 : inc_info_rules pol.config x inp.info_unspecified
      = inp.info_unspecified := by
    simp [inc_info_rules, h]
  have h2 : inc_warn_rules pol.config x (!inp.info_unspecified)
      = !inp.info_unspecified := by
    simp [inc_warn_rules, h]
  have h4 : inc_ignore_rules pol.config x true = false := by
    simp [inc_ignore_rules, h]
  have h5 : inc_fail_rules pol.config x true = false := by
    simp [inc_fail_rules, h]
  refine ⟨h1, h2, ?_, h4, h5, ?_, ?_⟩
  · rw [h1, h2]
    cases inp.info_unspecified <;> simp
  · intro g hg hgx
    have := (mem_level_groups _ _ _ _ _ _ g hg).1
    rw [hgx, h4] at this
    cases this
  · intro g hg hgx
    have := (mem_level_groups _ _ _ _ _ _ g hg).1
    rw [hgx, h5] at this
    cases this

/-- Witness for C2: with no configuration and the info-default flag set,
an unconfigured rule id belongs to the INFO pass and not to the IGNORE
pass. -/
theorem default_action_exclusive_witness :
    inc_info_rules Policy.empty.config "10001" true = true ∧
    inc_ignore_rules Policy.empty.config "10001" true = false :=
  ⟨(default_action_exclusive Policy.empty ⟨[], [], [], true⟩ "10001" rfl).1,
   (default_action_exclusive Policy.empty ⟨[], [], [], true⟩ "10001" rfl).2.2.2.1⟩

/-- CLAIM C7: for every run the new and in-progress WARN counters sum to
the total finding count across all WARN-classified groups, and likewise
for FAIL; moreover each group's whole finding count is attributed to the
in-progress counter exactly when its rule id is among the in-progress
records, and entirely to the new counter otherwise — the attribution is
per rule id, never per finding. -/
theorem reconcile_split_sum (pol : Policy) (inp : ScanInput) :
    ((classify_counts pol inp).warn_count + (classify_counts pol inp).warn_inprog_count
      = findings_sum ((zap_get_alerts inp.alerts blacklist pol.oos).filter
          (fun p => inc_warn_rules pol.config p.1 (!inp.info_unspecified)))) ∧
    ((classify_counts pol inp).fail_count + (classify_counts pol inp).fail_inprog_count
      = findings_sum ((zap_get_alerts inp.alerts blacklist pol.oos).filter
          (fun p => inc_fail_rules pol.config p.1 true))) ∧
    ((classify_counts pol inp).warn_count
      = findings_sum ((zap_get_alerts inp.alerts blacklist pol.oos).filter
          (fun p => inc_warn_rules pol.config p.1 (!inp.info_unspecified)
            && !(list_has inp.progress p.1)))) ∧
    ((classify_counts pol inp).warn_inprog_count
      = findings_sum ((zap_get_alerts inp.alerts blacklist pol.oos).filter
          (fun p => inc_warn_rules pol.config p.1 (!inp.info_unspecified)
            && list_has inp.progress p.1))) ∧
    ((classify_counts pol inp).fail_count
      = findings_sum ((zap_get_alerts inp.alerts blacklist pol.oos).filter
          (fun p => inc_fail_rules pol.config p.1 true
            && !(list_has inp.progress p.1)))) ∧
    ((classify_counts pol inp).fail_inprog_count
      = findings_sum ((zap_get_alerts inp.alerts blacklist pol.oos).filter
          (fun p => inc_fail_rules pol.config p.1 true
            && list_has inp.progress p.1))) := by
  have hw := print_rules_eq (zap_get_alerts inp.alerts blacklist pol.oos)
    pol.config inc_warn_rules (!inp.info_unspecified) inp.progress
  have hf := print_rules_eq (zap_get_alerts inp.alerts blacklist pol.oos)
    pol.config inc_fail_rules true inp.progress
  refine ⟨?_, ?_, ?_, ?_, ?_, ?_⟩
  · exact print_rules_new_add_inprog _ _ _ _ _
  · exact print_rules_new_add_inprog _ _ _ _ _
  · exact congrArg Prod.fst hw
  · exact congrArg Prod.snd hw
  · exact congrArg Prod.fst hf
  · exact congrArg Prod.snd hf

/-- CLAIM C3 counterexample: with one INFO-configured rule carrying one
finding, the reported INFO count differs between an empty in-progress
record set and one containing that rule id, so in-progress records do
affect the reported INFO finding count. -/
theorem info_count_inprog_counterexample :
    (classify_counts ⟨[("1", Action.INFO)], [], fun _ _ => false⟩
        ⟨[("1", "r")], [⟨"1", "u"⟩], [], false⟩).info_count
      ≠ (classify_counts ⟨[("1", Action.INFO)], [], fun _ _ => false⟩
          ⟨[("1", "r")], [⟨"1", "u"⟩], ["1"], false⟩).info_count := by
  decide

/-- CLAIM C3 (amended): reconciliation splitting follows the record sets
the caller hands to each pass (zap-baseline.py lines 362-375): PASS and
IGNORE counts are unaffected by the in-progress records — the IGNORE pass
is invoked with the empty record set — and WARN and FAIL groups are split
into new and in-progress parts; but the INFO pass also receives the
records, so the reported INFO count covers exactly the findings of
INFO-classified rules not marked in-progress, the in-progress remainder of
the INFO pass being discarded. -/
theorem reconciliation_scope (pol : Policy) (inp : ScanInput)
    (p : List String) :
    ((classify_counts pol { inp with progress := p }).ignore_count
      = (classify_counts pol { inp with progress := [] }).ignore_count) ∧
    ((classify_counts pol { inp with progress := p }).pass_count
      = (classify_counts pol { inp with progress := [] }).pass_count) ∧
    ((classify_counts pol { inp with progress := p }).info_count
      = findings_sum ((zap_get_alerts inp.alerts blacklist pol.oos).filter
          (fun q => inc_info_rules pol.config q.1 inp.info_unspecified
            && !(list_has p q.1)))) := by
  refine ⟨rfl, rfl, ?_⟩
  have h := print_rules_eq (zap_get_alerts inp.alerts blacklist pol.oos)
    pol.config inc_info_rules inp.info_unspecified p
  exact congrArg Prod.fst h

/-! Deny-list lemmas. -/

theorem add_alert_keys (d : AlertDict) (a : Alert) :
    ∀ q ∈ add_alert d a, q.1 = a.pluginId ∨ q.1 ∈ d.map Prod.fst := by
  unfold add_alert
  by_cases h : dmem d a.pluginId
  · rw [if_pos h]
    intro q hq
    rcases List.mem_map.mp hq with ⟨p, hp, he⟩
    right
    have hfst : q.1 = p.1 := by
      by_cases hpa : p.1 = a.pluginId
      · rw [if_pos hpa] at he
        rw [← he]
      · rw [if_neg hpa] at he
        rw [← he]
    rw [hfst]
    exact List.mem_map.mpr ⟨p, hp, rfl⟩
  · rw [if_neg h]
    intro q hq
    rcases List.mem_append.mp hq with hq | hq
    · exact Or.inr (List.mem_map.mpr ⟨q, hq, rfl⟩)
    · left
      cases List.mem_singleton.mp hq
      rfl

theorem zap_get_alerts_keys_ne (deny : List String)
    (oos : String → String → Bool) (x : String)
    (hx : list_has deny x = true) :
    ∀ (alerts : List Alert) (d : AlertDict), (∀ q ∈ d, q.1 ≠ x) →
      ∀ q ∈ alerts.foldl
        (fun d a =>
          if list_has deny a.pluginId || oos a.pluginId a.url then d
          else add_alert d a) d, q.1 ≠ x := by
  intro alerts
  induction alerts with
  | nil => intro d hd q hq; exact hd q hq
  | cons a as ih =>
    intro d hd
    simp only [List.foldl_cons]
    by_cases hskip : (list_has deny a.pluginId || oos a.pluginId a.url) = true
    · rw [if_pos hskip]
      exact ih d hd
    · rw [if_neg hskip]
      apply ih
      intro q hq
      rcases add_alert_keys d a q hq with h1 | h1
      · rw [h1]
        intro he
        exact hskip (by rw [he]; simp [hx])
      · rcases List.mem_map.mp h1 with ⟨p, hp, hpe⟩
        rw [← hpe]
        exact hd p hp

theorem pass_dict_keys_ne (ad : AlertDict) (x : String)
    (hx : list_has blacklist x = true) :
    ∀ (rules : List (String × String)) (d : List (String × String)),
      (∀ q ∈ d, q.1 ≠ x) → ∀ q ∈ rules.foldl
        (fun d r =>
          if list_has blacklist r.1 then d
          else if dmem ad r.1 then d
          else dinsert d r.1 r.2) d, q.1 ≠ x := by
  intro rules
  induction rules with
  | nil => intro d hd q hq; exact hd q hq
  | cons r rs ih =>
    intro d hd
    simp only [List.foldl_cons]
    by_cases h1 : list_has blacklist r.1 = true
    · rw [if_pos h1]; exact ih d hd
    · rw [if_neg h1]
      by_cases h2 : dmem ad r.1 = true
      · rw [if_pos h2]; exact ih d hd
      · rw [if_neg h2]
        apply ih
        intro q hq
        rcases dinsert_mem_sub d r.1 r.2 q hq with hq1 | hq1
        · exact hd q hq1
        · rw [hq1]
          intro he
          exact h1 (by rw [he]; exact hx)

theorem all_dict_keys_ne (x : String) (hx : list_has blacklist x = true) :
    ∀ (rules : List (String × String)) (d : List (String × String)),
      (∀ q ∈ d, q.1 ≠ x) → ∀ q ∈ rules.foldl
        (fun d r => if list_has blacklist r.1 then d else dinsert d r.1 r.2) d,
      q.1 ≠ x := by
  intro rules
  induction rules with
  | nil => intro d hd q hq; exact hd q hq
  | cons r rs ih =>
    intro d hd
    simp only [List.foldl_cons]
    by_cases h1 : list_has blacklist r.1 = true
    · rw [if_pos h1]; exact ih d hd
    · rw [if_neg h1]
      apply ih
      intro q hq
      rcases dinsert_mem_sub d r.1 r.2 q hq with hq1 | hq1
      · exact hd q hq1
      · rw [hq1]
        intro he
        exact h1 (by rw [he]; exact hx)

/-- CLAIM C5: a finding whose rule id is on the fixed deny list appears in
no classified group and contributes to no count — prepending such a
finding leaves the entire run result unchanged — and a denied rule is
likewise never counted as a PASS rule nor emitted by the config generator,
regardless of any policy configuration. -/
theorem denylist_absolute (pol : Policy) (inp : ScanInput) (x : String)
    (hx : list_has blacklist x = true) :
    (∀ q ∈ zap_get_alerts inp.alerts blacklist pol.oos, q.1 ≠ x) ∧
    (∀ g ∈ (run_result pol inp).ignore_groups ++ (run_result pol inp).info_groups
        ++ (run_result pol inp).warn_groups ++ (run_result pol inp).fail_groups,
      g.ruleId ≠ x) ∧
    (∀ q ∈ pass_dict inp.rules (zap_get_alerts inp.alerts blacklist pol.oos),
      q.1 ≠ x) ∧
    (∀ q ∈ all_dict inp.rules, q.1 ≠ x) ∧
    (∀ a : Alert, a.pluginId = x →
      run_result pol { inp with alerts := a :: inp.alerts } = run_result pol inp) := by
  have had : ∀ q ∈ zap_get_alerts inp.alerts blacklist pol.oos, q.1 ≠ x :=
    zap_get_alerts_keys_ne blacklist pol.oos x hx inp.alerts [] (by simp)
  refine ⟨had, ?_, ?_, ?_, ?_⟩
  · intro g hg
    simp only [List.mem_append] at hg
    rcases hg with ((hg | hg) | hg) | hg <;>
    · obtain ⟨_, p, hp, hpe⟩ := mem_level_groups _ _ _ _ _ _ g hg
      rw [← hpe]
      exact had p hp
  · exact pass_dict_keys_ne _ x hx inp.rules [] (by simp)
  · exact all_dict_keys_ne x hx inp.rules [] (by simp)
  · intro a ha
    have had2 : zap_get_alerts (a :: inp.alerts) blacklist pol.oos
        = zap_get_alerts inp.alerts blacklist pol.oos := by
      unfold zap_get_alerts
      simp only [List.foldl_cons]
      rw [if_pos (by rw [ha]; simp [hx])]
    show run_result pol ⟨inp.rules, a :: inp.alerts, inp.progress,
      inp.info_unspecified⟩ = run_result pol inp
    unfold run_result classify_counts
    simp only
    rw [had2]

/-- Witness for C5: prepending a finding for deny-listed rule 50003 leaves
the run result unchanged. -/
theorem denylist_absolute_witness :
    run_result Policy.empty
        ⟨[("10001", "X")], [Alert.mk "50003" "u"], [], false⟩
      = run_result Policy.empty ⟨[("10001", "X")], [], [], false⟩ :=
  (denylist_absolute Policy.empty ⟨[("10001", "X")], [], [], false⟩ "50003"
    (by decide)).2.2.2.2 (Alert.mk "50003" "u") rfl

/-! Characterisation of the registry folds under unique rule ids. -/

theorem foldl_dinsert_eq_filter (pred : String × String → Bool) :
    ∀ (rules : List (String × String)) (d : List (String × String)),
      (∀ q ∈ d, q.1 ∉ rules.map Prod.fst) → (rules.map Prod.fst).Nodup →
      rules.foldl (fun d r => if pred r then dinsert d r.1 r.2 else d) d
        = d ++ rules.filter pred := by
  intro rules
  induction rules with
  | nil => intro d _ _; simp
  | cons r rs ih =>
    intro d hd hnd
    simp only [List.map_cons, List.nodup_cons] at hnd
    simp only [List.foldl_cons, List.filter_cons]
    cases hp : pred r
    · rw [if_neg (by simp [hp]), if_neg (by simp [hp])]
      exact ih d (fun q hq => fun hc => hd q hq (List.mem_cons_of_mem _ hc)) hnd.2
    · rw [if_pos (by simp [hp]), if_pos (by simp [hp])]
      have hmem : dmem d r.1 = false := by
        cases hm : dmem d r.1
        · rfl
        · obtain ⟨q, hq, hqe⟩ := (dmem_iff d r.1).mp hm
          have hqmem : q.1 ∈ (r :: rs).map Prod.fst := by
            rw [hqe]; simp
          exact absurd hqmem (hd q hq)
      rw [dinsert_of_dmem_false d r.1 r.2 hmem]
      have step : ∀ q ∈ d ++ [(r.1, r.2)], q.1 ∉ rs.map Prod.fst := by
        intro q hq
        rcases List.mem_append.mp hq with hq | hq
        · exact fun hc => hd q hq (List.mem_cons_of_mem _ hc)
        · cases List.mem_singleton.mp hq
          exact hnd.1
      rw [ih (d ++ [(r.1, r.2)]) step hnd.2, List.append_assoc]
      rfl

theorem pass_dict_eq (rules : List (String × String)) (ad : AlertDict)
    (h : (rules.map Prod.fst).Nodup) :
    pass_dict rules ad
      = rules.filter (fun r => !(list_has blacklist r.1) && !(dmem ad r.1)) := by
  unfold pass_dict
  have hfun : (fun (d : List (String × String)) (r : String × String) =>
      if list_has blacklist r.1 then d
      else if dmem ad r.1 then d
      else dinsert d r.1 r.2)
    = (fun d r =>
        if (!(list_has blacklist r.1) && !(dmem ad r.1)) then dinsert d r.1 r.2
        else d) := by
    funext d r
    cases h1 : list_has blacklist r.1 <;> cases h2 : dmem ad r.1 <;>
      simp [h1, h2]
  rw [hfun]
  simpa using foldl_dinsert_eq_filter
    (fun r => !(list_has blacklist r.1) && !(dmem ad r.1)) rules [] (by simp) h

theorem all_dict_eq (rules : List (String × String))
    (h : (rules.map Prod.fst).Nodup) :
    all_dict rules = rules.filter (fun r => !(list_has blacklist r.1)) := by
  unfold all_dict
  have hfun : (fun (d : List (String × String)) (r : String × String) =>
      if list_has blacklist r.1 then d else dinsert d r.1 r.2)
    = (fun d r =>
        if !(list_has blacklist r.1) then dinsert d r.1 r.2 else d) := by
    funext d r
    cases h1 : list_has blacklist r.1 <;> simp [h1]
  rw [hfun]
  simpa using foldl_dinsert_eq_filter
    (fun r => !(list_has blacklist r.1)) rules [] (by simp) h

theorem length_filter_not {α : Type} (l : List α) (p : α → Bool) :
    (l.filter (fun a => !(p a))).length = l.length - (l.filter p).length := by
  induction l with
  | nil => rfl
  | cons a as ih =>
    have hle := List.length_filter_le p as
    cases h : p a <;> (simp [List.filter_cons, h, ih]; try omega)

/-- CLAIM C6: the pass count equals the number of non-denied registry rules
with zero surviving findings; in particular, with an empty finding set
every non-denied registry rule passes and the pass count equals the
registry size minus the number of deny-listed registry entries. -/
theorem pass_count_spec (pol : Policy) (inp : ScanInput)
    (h : (inp.rules.map Prod.fst).Nodup) :
    ((classify_counts pol inp).pass_count
      = (inp.rules.filter (fun r => !(list_has blacklist r.1)
          && !(dmem (zap_get_alerts inp.alerts blacklist pol.oos) r.1))).length) ∧
    (inp.alerts = [] →
      ((classify_counts pol inp).pass_count
        = (inp.rules.filter (fun r => !(list_has blacklist r.1))).length) ∧
      ((classify_counts pol inp).pass_count
        = inp.rules.length
            - (inp.rules.filter (fun r => list_has blacklist r.1)).length)) := by
  have h1 : (classify_counts pol inp).pass_count
      = (pass_dict inp.rules (zap_get_alerts inp.alerts blacklist pol.oos)).length :=
    rfl
  constructor
  · rw [h1, pass_dict_eq inp.rules _ h]
  · intro he
    have had : zap_get_alerts inp.alerts blacklist pol.oos = [] := by
      rw [he]; rfl
    have h2 : (classify_counts pol inp).pass_count
        = (inp.rules.filter (fun r => !(list_has blacklist r.1))).length := by
      rw [h1, pass_dict_eq inp.rules _ h, had]
      congr 1
      apply List.filter_congr
      intro r _
      simp [dmem]
    refine ⟨h2, ?_⟩
    rw [h2]
    have := length_filter_not inp.rules (fun r => list_has blacklist r.1)
    simpa using this

/-- Witness for C6: a three-rule registry with one deny-listed entry and no
findings yields a pass count of registry size minus one. -/
theorem pass_count_spec_witness :
    (classify_counts Policy.empty
        ⟨[("10001", "A"), ("50003", "B"), ("10002", "C")], [], [], false⟩).pass_count
      = ([("10001", "A"), ("50003", "B"), ("10002", "C")] :
          List (String × String)).length
        - (([("10001", "A"), ("50003", "B"), ("10002", "C")] :
            List (String × String)).filter
              (fun r => list_has blacklist r.1)).length :=
  ((pass_count_spec Policy.empty
    ⟨[("10001", "A"), ("50003", "B"), ("10002", "C")], [], [], false⟩
    (by decide)).2 rfl).2

/-- CLAIM C8: the configuration template the generator writes consists of
the four fixed comment headers followed by exactly one line of the form
`id TAB WARN TAB (name)` per registry rule that is not on the deny list —
the action placeholder is always WARN — and those rule lines are ordered
by rule id ascending. -/
theorem generate_lines_spec (rules : List (String × String))
    (h : (rules.map Prod.fst).Nodup) :
    (generate_lines rules
      = config_headers ++ (sort_items (all_dict rules)).map
          (fun p => p.1 ++ "\tWARN\t(" ++ p.2 ++ ")")) ∧
    List.Perm (sort_items (all_dict rules))
      (rules.filter (fun r => !(list_has blacklist r.1))) ∧
    List.Sorted (fun (a b : String × String) => a.1 ≤ b.1)
      (sort_items (all_dict rules)) ∧
    ((sort_items (all_dict rules)).map
        (fun p => p.1 ++ "\tWARN\t(" ++ p.2 ++ ")")).length
      = (rules.filter (fun r => !(list_has blacklist r.1))).length := by
  have hperm : List.Perm (sort_items (all_dict rules))
      (rules.filter (fun r => !(list_has blacklist r.1))) := by
    rw [← all_dict_eq rules h]
    exact List.perm_insertionSort _ _
  refine ⟨rfl, hperm, ?_, ?_⟩
  · exact List.sorted_insertionSort _ _
  · rw [List.length_map]
    exact hperm.length_eq

/-- Witness for C8 on a two-rule registry: the sorted non-denied entries
are a permutation of the registry's non-denied entries. -/
theorem generate_lines_spec_witness :
    List.Perm (sort_items (all_dict [("2", "b"), ("10", "a")]))
      ([("2", "b"), ("10", "a")].filter
        (fun r => !(list_has blacklist r.1))) :=
  (generate_lines_spec [("2", "b"), ("10", "a")] (by decide)).2.1

/-! Parsing the generator's own output. -/

theorem split_tabs_chars_no_tab (a : List Char) (h : '\t' ∉ a) :
    ∀ (rest cur : List Char),
      split_tabs_chars (a ++ rest) cur
        = split_tabs_chars rest (a.reverse ++ cur) := by
  induction a with
  | nil => intro rest cur; simp
  | cons c cs ih =>
    intro rest cur
    have hc : ¬c = '\t' := fun hc => h (hc ▸ List.mem_cons_self c cs)
    have hcs : '\t' ∉ cs := fun hm => h (List.mem_cons_of_mem c hm)
    simp only [List.cons_append, split_tabs_chars, if_neg hc, List.append_eq]
    rw [ih hcs rest (c :: cur)]
    congr 1
    simp

theorem split_tabs_chars_all (a : List Char) (h : '\t' ∉ a) :
    ∀ cur : List Char, split_tabs_chars a cur = [cur.reverse ++ a] := by
  induction a with
  | nil => intro cur; simp [split_tabs_chars]
  | cons c cs ih =>
    intro cur
    have hc : ¬c = '\t' := fun hc => h (hc ▸ List.mem_cons_self c cs)
    have hcs : '\t' ∉ cs := fun hm => h (List.mem_cons_of_mem c hm)
    simp only [split_tabs_chars, if_neg hc, List.append_eq]
    rw [ih hcs (c :: cur)]
    simp

theorem split_tabs_chars_tab (rest cur : List Char) :
    split_tabs_chars ('\t' :: rest) cur
      = cur.reverse :: split_tabs_chars rest [] := rfl

theorem split_tabs_generated (ruleId name : String)
    (hid : '\t' ∉ ruleId.toList) (hname : '\t' ∉ name.toList) :
    split_tabs (ruleId ++ "\tWARN\t(" ++ name ++ ")")
      = [ruleId, "WARN", "(" ++ name ++ ")"] := by
  have hchars : (ruleId ++ "\tWARN\t(" ++ name ++ ")").toList
      = ruleId.toList
        ++ ('\t' :: ('W' :: 'A' :: 'R' :: 'N'
              :: ('\t' :: ('(' :: (name.toList ++ [')']))))) := by
    show ruleId.toList ++ "\tWARN\t(".toList ++ name.toList ++ ")".toList
        = ruleId.toList ++ _
    simp
  have hpar : '\t' ∉ '(' :: (name.toList ++ [')']) := by
    intro hm
    rcases List.mem_cons.mp hm with hm | hm
    · cases hm
    · rcases List.mem_append.mp hm with hm | hm
      · exact hname hm
      · cases List.mem_singleton.mp hm
  have h3 : ('(' :: (name.toList ++ [')'])) = ("(" ++ name ++ ")").toList := by
    show _ = "(".toList ++ name.toList ++ ")".toList
    simp
  unfold split_tabs
  rw [hchars, split_tabs_chars_no_tab ruleId.toList hid, List.append_nil,
    split_tabs_chars_tab, List.reverse_reverse]
  rw [show ('W' :: 'A' :: 'R' :: 'N'
      :: ('\t' :: ('(' :: (name.toList ++ [')']))))
    = ['W', 'A', 'R', 'N'] ++ ('\t' :: ('(' :: (name.toList ++ [')']))) from rfl]
  rw [split_tabs_chars_no_tab ['W', 'A', 'R', 'N'] (by decide), List.append_nil,
    split_tabs_chars_tab, split_tabs_chars_all _ hpar []]
  simp only [List.map_cons, List.map_nil, List.reverse_reverse,
    List.reverse_nil, List.nil_append, h3, String.asString_toList]
  rfl

theorem parse_generated_line (ruleId name : String)
    (hid : '\t' ∉ ruleId.toList) (hname : '\t' ∉ name.toList) :
    parse_config_line (ruleId ++ "\tWARN\t(" ++ name ++ ")")
      = if is_comment_or_blank (ruleId ++ "\tWARN\t(" ++ name ++ ")") then none
        else some (ruleId, Action.WARN, none) := by
  by_cases hc : is_comment_or_blank (ruleId ++ "\tWARN\t(" ++ name ++ ")") = true
  · rw [if_pos hc]
    unfold parse_config_line
    rw [if_pos hc]
  · rw [if_neg hc]
    unfold parse_config_line
    rw [if_neg hc, split_tabs_generated ruleId name hid hname]
    rfl

theorem parse_header_none :
    ∀ line ∈ config_headers, parse_config_line line = none := by
  intro line hl
  simp only [config_headers, List.mem_cons, List.not_mem_nil, or_false] at hl
  rcases hl with rfl | rfl | rfl | rfl
  all_goals rfl

theorem all_dict_fold_pres (S : String × String → Prop) :
    ∀ (rules : List (String × String)) (d : List (String × String)),
      (∀ q ∈ d, S q) → (∀ r ∈ rules, S (r.1, r.2)) →
      ∀ q ∈ rules.foldl
        (fun d r => if list_has blacklist r.1 then d else dinsert d r.1 r.2) d,
      S q := by
  intro rules
  induction rules with
  | nil => intro d hd _ q hq; exact hd q hq
  | cons r rs ih =>
    intro d hd hr
    simp only [List.foldl_cons]
    by_cases h1 : list_has blacklist r.1 = true
    · rw [if_pos h1]
      exact ih d hd (fun q hq => hr q (List.mem_cons_of_mem _ hq))
    · rw [if_neg h1]
      apply ih
      · intro q hq
        rcases dinsert_mem_sub d r.1 r.2 q hq with hq | hq
        · exact hd q hq
        · rw [hq]
          exact hr r (List.mem_cons_self r rs)
      · intro q hq
        exact hr q (List.mem_cons_of_mem _ hq)

theorem mem_all_dict_tabfree (rules : List (String × String))
    (htab : ∀ r ∈ rules, '\t' ∉ r.1.toList ∧ '\t' ∉ r.2.toList) :
    ∀ q ∈ all_dict rules, '\t' ∉ q.1.toList ∧ '\t' ∉ q.2.toList := by
  unfold all_dict
  exact all_dict_fold_pres
    (fun q => '\t' ∉ q.1.toList ∧ '\t' ∉ q.2.toList) rules [] (by simp)
    (fun r hr => htab r hr)

theorem generate_lines_parse (rules : List (String × String))
    (htab : ∀ r ∈ rules, '\t' ∉ r.1.toList ∧ '\t' ∉ r.2.toList) :
    ∀ line ∈ generate_lines rules, ∀ x a m,
      parse_config_line line = some (x, a, m)
        → a = Action.WARN ∧ m = none := by
  intro line hl x a m hp
  unfold generate_lines at hl
  rcases List.mem_append.mp hl with hl | hl
  · rw [parse_header_none line hl] at hp
    cases hp
  · rcases List.mem_map.mp hl with ⟨p, hp2, he⟩
    have hpm : p ∈ all_dict rules :=
      ((List.perm_insertionSort _ _).mem_iff).mp hp2
    have htp := mem_all_dict_tabfree rules htab p hpm
    rw [← he, parse_generated_line p.1 p.2 htp.1 htp.2] at hp
    by_cases hcb : is_comment_or_blank (p.1 ++ "\tWARN\t(" ++ p.2 ++ ")") = true
    · rw [if_pos hcb] at hp
      cases hp
    · rw [if_neg hcb] at hp
      have h2 := hp
      simp only [Option.some.injEq, Prod.mk.injEq] at h2
      exact ⟨h2.2.1.symm, h2.2.2.symm⟩

theorem load_config_fold_warn :
    ∀ (lines : List String) (cfg : List (String × Action)),
      (∀ line ∈ lines, ∀ x a m,
        parse_config_line line = some (x, a, m) → a = Action.WARN) →
      (∀ x, dlookup cfg x = none ∨ dlookup cfg x = some Action.WARN) →
      ∀ x, dlookup (lines.foldl
          (fun cfg line =>
            match parse_config_line line with
            | some (r, a, _) => dinsert cfg r a
            | none => cfg) cfg) x = none
        ∨ dlookup (lines.foldl
            (fun cfg line =>
              match parse_config_line line with
              | some (r, a, _) => dinsert cfg r a
              | none => cfg) cfg) x = some Action.WARN := by
  intro lines
  induction lines with
  | nil => intro cfg _ hcfg x; exact hcfg x
  | cons l ls ih =>
    intro cfg hl hcfg x
    simp only [List.foldl_cons]
    cases hp : parse_config_line l with
    | none =>
      exact ih cfg (fun q hq => hl q (List.mem_cons_of_mem _ hq)) hcfg x
    | some v =>
      obtain ⟨r, a, m⟩ := v
      have ha : a = Action.WARN := hl l (List.mem_cons_self l ls) r a m hp
      subst ha
      apply ih (dinsert cfg r Action.WARN)
        (fun q hq => hl q (List.mem_cons_of_mem _ hq))
      intro y
      by_cases hy : y = r
      · subst hy
        exact Or.inr (dlookup_dinsert_self cfg y Action.WARN)
      · rw [dlookup_dinsert_ne cfg r y Action.WARN hy]
        exact hcfg y

theorem load_msgs_fold_nil :
    ∀ (lines : List String),
      (∀ line ∈ lines, ∀ x a m,
        parse_config_line line = some (x, a, m) → m = none) →
      ∀ (msgs : List (String × String)),
        lines.foldl
          (fun msgs line =>
            match parse_config_line line with
            | some (r, _, some m) => dinsert msgs r m
            | _ => msgs) msgs = msgs := by
  intro lines
  induction lines with
  | nil => intro _ msgs; rfl
  | cons l ls ih =>
    intro hl msgs
    simp only [List.foldl_cons]
    cases hp : parse_config_line l with
    | none =>
      exact ih (fun q hq => hl q (List.mem_cons_of_mem _ hq)) msgs
    | some v =>
      obtain ⟨r, a, m⟩ := v
      have hm : m = none := hl l (List.mem_cons_self l ls) r a m hp
      subst hm
      exact ih (fun q hq => hl q (List.mem_cons_of_mem _ hq)) msgs

theorem load_config_generate_warn (rules : List (String × String))
    (htab : ∀ r ∈ rules, '\t' ∉ r.1.toList ∧ '\t' ∉ r.2.toList) :
    ∀ x, dlookup (load_config (generate_lines rules)) x = none
      ∨ dlookup (load_config (generate_lines rules)) x = some Action.WARN := by
  intro x
  unfold load_config
  exact load_config_fold_warn (generate_lines rules) []
    (fun line hline y a m hp => (generate_lines_parse rules htab line hline y a m hp).1)
    (fun _ => Or.inl rfl) x

theorem load_msgs_generate_nil (rules : List (String × String))
    (htab : ∀ r ∈ rules, '\t' ∉ r.1.toList ∧ '\t' ∉ r.2.toList) :
    load_msgs (generate_lines rules) = [] := by
  unfold load_msgs
  exact load_msgs_fold_nil (generate_lines rules)
    (fun line hline y a m hp => (generate_lines_parse rules htab line hline y a m hp).2)
    []

/-! Congruence of the passes in the configuration argument. -/

theorem print_rules_congr (ad : AlertDict)
    (cfg cfg' : List (String × Action))
    (inc inc' : List (String × Action) → String → Bool → Bool)
    (b b' : Bool) (prog : List String)
    (hinc : ∀ x, inc cfg x b = inc' cfg' x b') :
    print_rules ad cfg inc b prog = print_rules ad cfg' inc' b' prog := by
  rw [print_rules_eq, print_rules_eq]
  have h1 : ad.filter (fun p => inc cfg p.1 b && !(list_has prog p.1))
      = ad.filter (fun p => inc' cfg' p.1 b' && !(list_has prog p.1)) :=
    List.filter_congr (fun p _ => by rw [hinc p.1])
  have h2 : ad.filter (fun p => inc cfg p.1 b && list_has prog p.1)
      = ad.filter (fun p => inc' cfg' p.1 b' && list_has prog p.1) :=
    List.filter_congr (fun p _ => by rw [hinc p.1])
  rw [h1, h2]

theorem level_groups_congr (ad : AlertDict)
    (cfg cfg' : List (String × Action))
    (msgs msgs' : List (String × String))
    (inc inc' : List (String × Action) → String → Bool → Bool)
    (b b' : Bool) (prog : List String)
    (hinc : ∀ x, inc cfg x b = inc' cfg' x b')
    (hmsg : ∀ x, dlookup msgs x = dlookup msgs' x) :
    level_groups ad cfg msgs inc b prog
      = level_groups ad cfg' msgs' inc' b' prog := by
  unfold level_groups
  exact List.filterMap_congr (fun p _ => by rw [hinc p.1, hmsg p.1])

/-- CLAIM C4 (amended): parsing the generator's own output, with every
action left at WARN and no edits, reproduces the no-configuration run —
same classified groups, same counters, same exit verdict — provided the
info-default flag is not set (and the registry's rule ids and names are
tab-free, as all real rule entries are, so that the generated lines parse
back into their three fields); with the flag set the two runs differ,
because an unconfigured rule classifies as INFO while the template's
explicit WARN action classifies it as WARN. -/
theorem generate_roundtrip (inp : ScanInput)
    (htab : ∀ r ∈ inp.rules, '\t' ∉ r.1.toList ∧ '\t' ∉ r.2.toList)
    (hflag : inp.info_unspecified = false) :
    run_result ⟨load_config (generate_lines inp.rules),
        load_msgs (generate_lines inp.rules), fun _ _ => false⟩ inp
      = run_result ⟨[], [], fun _ _ => false⟩ inp := by
  have hW := load_config_generate_warn inp.rules htab
  have hM := load_msgs_generate_nil inp.rules htab
  have hig : ∀ x,
      inc_ignore_rules (load_config (generate_lines inp.rules)) x true
        = inc_ignore_rules [] x true := by
    intro x
    rcases hW x with h | h <;> simp [inc_ignore_rules, h, dlookup]
  have hin : ∀ x,
      inc_info_rules (load_config (generate_lines inp.rules)) x inp.info_unspecified
        = inc_info_rules [] x inp.info_unspecified := by
    intro x
    rw [hflag]
    rcases hW x with h | h <;> simp [inc_info_rules, h, dlookup]
  have hwa : ∀ x,
      inc_warn_rules (load_config (generate_lines inp.rules)) x (!inp.info_unspecified)
        = inc_warn_rules [] x (!inp.info_unspecified) := by
    intro x
    rw [hflag]
    rcases hW x with h | h <;> simp [inc_warn_rules, h, dlookup]
  have hfa : ∀ x,
      inc_fail_rules (load_config (generate_lines inp.rules)) x true
        = inc_fail_rules [] x true := by
    intro x
    rcases hW x with h | h <;> simp [inc_fail_rules, h, dlookup]
  have hmsg : ∀ x,
      dlookup (load_msgs (generate_lines inp.rules)) x
        = dlookup ([] : List (String × String)) x := by
    intro x
    rw [hM]
  have hcounts :
      classify_counts ⟨load_config (generate_lines inp.rules),
          load_msgs (generate_lines inp.rules), fun _ _ => false⟩ inp
        = classify_counts ⟨[], [], fun _ _ => false⟩ inp := by
    simp only [classify_counts, Counts.mk.injEq]
    refine ⟨trivial, ?_, ?_, ?_, ?_, ?_, ?_⟩
    · exact congrArg Prod.fst (print_rules_congr _ _ _ _ _ _ _ _ hig)
    · exact congrArg Prod.fst (print_rules_congr _ _ _ _ _ _ _ _ hin)
    · exact congrArg Prod.fst (print_rules_congr _ _ _ _ _ _ _ _ hwa)
    · exact congrArg Prod.snd (print_rules_congr _ _ _ _ _ _ _ _ hwa)
    · exact congrArg Prod.fst (print_rules_congr _ _ _ _ _ _ _ _ hfa)
    · exact congrArg Prod.snd (print_rules_congr _ _ _ _ _ _ _ _ hfa)
  simp only [run_result, RunResult.mk.injEq]
  refine ⟨trivial, ?_, ?_, ?_, ?_, hcounts, ?_⟩
  · exact level_groups_congr _ _ _ _ _ _ _ _ _ _ hig hmsg
  · exact level_groups_congr _ _ _ _ _ _ _ _ _ _ hin hmsg
  · exact level_groups_congr _ _ _ _ _ _ _ _ _ _ hwa hmsg
  · exact level_groups_congr _ _ _ _ _ _ _ _ _ _ hfa hmsg
  · exact congrArg exit_code hcounts

/-- Witness for C4: on a one-rule registry with one finding and the
info-default flag unset, the parsed template run equals the
no-configuration run. -/
theorem generate_roundtrip_witness :
    run_result ⟨load_config (generate_lines [("10001", "X")]),
        load_msgs (generate_lines [("10001", "X")]), fun _ _ => false⟩
        ⟨[("10001", "X")], [Alert.mk "10001" "u"], [], false⟩
      = run_result ⟨[], [], fun _ _ => false⟩
          ⟨[("10001", "X")], [Alert.mk "10001" "u"], [], false⟩ :=
  generate_roundtrip ⟨[("10001", "X")], [Alert.mk "10001" "u"], [], false⟩
    (by decide) rfl

/-- CLAIM C4 counterexample: with the info-default flag set, a one-rule
registry with one finding yields different counters and a different exit
verdict under the parsed generator output (the finding counts as WARN,
exit 2) than with no configuration at all (it counts as INFO, and with no
passing rule the exit is 3). -/
theorem generate_roundtrip_counterexample :
    ((classify_counts ⟨load_config (generate_lines [("10001", "X")]),
        load_msgs (generate_lines [("10001", "X")]), fun _ _ => false⟩
        ⟨[("10001", "X")], [Alert.mk "10001" "u"], [], true⟩).info_count
      ≠ (classify_counts ⟨[], [], fun _ _ => false⟩
          ⟨[("10001", "X")], [Alert.mk "10001" "u"], [], true⟩).info_count)
    ∧ (exit_code (classify_counts ⟨load_config (generate_lines [("10001", "X")]),
          load_msgs (generate_lines [("10001", "X")]), fun _ _ => false⟩
          ⟨[("10001", "X")], [Alert.mk "10001" "u"], [], true⟩)
        ≠ exit_code (classify_counts ⟨[], [], fun _ _ => false⟩
            ⟨[("10001", "X")], [Alert.mk "10001" "u"], [], true⟩)) := by
  constructor
  · decide
  · decide

end ZapBaseline
